import Mathlib

/-!
Shallow embedding of `chisel/src/env.rs` (Chisel REPL session environment):
the fragment data model, the source synthesizer `contract_source`, the
snapshot (de)serialization, and the session cache operations
(`next_cached_session`, `write`, `list_sessions`, `clear_cache`).

Modelling conventions:
* `solang_parser::pt` trees are embedded by the constructors `env.rs`
  inspects; payloads it never reads (source locations, identifiers,
  comments) are elided.  `Import` keeps only the `StringLiteral.string`
  field, the sole payload `env.rs` reads.
* `semver::Version` is embedded as its display string, the only use
  `contract_source` and serialization make of it.
* The filesystem cache directory is a list of entries in `read_dir`
  iteration order; a file's bytes are embedded as the JSON value they
  parse to, since every reader in `env.rs` immediately parses them.
* The external parser collaborator (out of scope per the design) is a
  parameter `parse : String → Option (List SourceUnitPart)`.
-/

/-- JSON values, the image of `serde_json` as used by `env.rs`. -/
inductive Json where
  | null : Json
  | bool (b : Bool) : Json
  | num (n : Nat) : Json
  | str (s : String) : Json
  | arr (elems : List Json) : Json
  | obj (fields : List (String × Json)) : Json
  deriving Repr

/-- Embeds `solang_parser::pt::Import`; each variant keeps the
`StringLiteral.string` payload that `contract_source` extracts
(other fields of the Rust variants are never read by `env.rs`). -/
inductive Import where
  | Plain (string : String) : Import
  | GlobalSymbol (string : String) : Import
  | Rename (string : String) : Import
  deriving Repr, DecidableEq

/-- Embeds `solang_parser::pt::SourceUnitPart` by the constructors
`env.rs` matches on; payloads it never reads are elided. -/
inductive SourceUnitPart where
  | PragmaDirective : SourceUnitPart
  | ImportDirective (imp : Import) : SourceUnitPart
  | ContractDefinition : SourceUnitPart
  | EnumDefinition : SourceUnitPart
  | StructDefinition : SourceUnitPart
  | EventDefinition : SourceUnitPart
  | ErrorDefinition : SourceUnitPart
  | FunctionDefinition : SourceUnitPart
  | VariableDefinition : SourceUnitPart
  | TypeDefinition : SourceUnitPart
  | Using : SourceUnitPart
  | StraySemicolon : SourceUnitPart
  deriving Repr, DecidableEq

/-- Embeds `semver::Version` by its display string (all `env.rs` does
with a version is format it and serialize it). -/
abbrev Version := String

/-- Embeds `SolSnippet`: the parsed source unit (the
`(SourceUnit, Vec<Comment>)` tuple is projected to the `Vec<SourceUnitPart>`
that `.0 .0` reaches; comments are never read) and the raw source text. -/
structure SolSnippet where
  source_unit : List SourceUnitPart
  raw : String
  deriving Repr, DecidableEq

/-- Embeds `ChiselEnv`'s serializable state: `project` and `rl` carry
`#[serde(skip)]` and are never read by the modelled operations, so they
are elided. -/
structure ChiselEnv where
  solc_version : Version
  session : List SolSnippet
  id : Option Nat
  deriving Repr, DecidableEq

/-- The predicate of the `find` closure in `contract_source`: the snippet's
source unit contains a pragma directive anywhere
(`.iter().any(|i| matches!(i, SourceUnitPart::PragmaDirective(_, _, _)))`). -/
def snippetHasPragma (i : SolSnippet) : Bool :=
  i.source_unit.any fun p =>
    match p with
    | SourceUnitPart.PragmaDirective => true
    | _ => false

/-- The filter in the imports extraction:
`matches!(i, SourceUnitPart::ImportDirective(_))`. -/
def isImportPart (p : SourceUnitPart) : Bool :=
  match p with
  | SourceUnitPart.ImportDirective _ => true
  | _ => false

/-- Placeholder for the value of the `unreachable!()` arm in the imports
extraction closure; the development proves the arm is never taken. -/
def unreachableString : String := "internal error: entered unreachable code"

/-- The map in the imports extraction: an `ImportDirective` yields its
string literal's `string`; any other part hits the `unreachable!()` arm,
embedded as the placeholder `unreachableString`. -/
def importPathOfPart (sup : SourceUnitPart) : String :=
  match sup with
  | SourceUnitPart.ImportDirective imp =>
    match imp with
    | Import.Plain sl => sl
    | Import.GlobalSymbol sl => sl
    | Import.Rename sl => sl
  | _ => unreachableString

/-- The `imports` local of `contract_source`: flat-map each snippet's
source-unit parts through the import filter and path map, then
`join("\n")`. -/
def imports_block (session : List SolSnippet) : String :=
  String.intercalate "\n"
    (session.map fun i => (i.source_unit.filter isImportPart).map importPathOfPart).flatten

/-- The filter of the `top_level_units` local: only the first source unit
part (`get(0)`) of each snippet is inspected, with the exact match table
from `contract_source`. -/
def isTopLevelSnippet (unit : SolSnippet) : Bool :=
  match unit.source_unit.head? with
  | some d =>
    match d with
    | SourceUnitPart.PragmaDirective => false
    | SourceUnitPart.ContractDefinition => false
    | SourceUnitPart.ImportDirective _ => false
    | SourceUnitPart.EnumDefinition => true
    | SourceUnitPart.StructDefinition => true
    | SourceUnitPart.EventDefinition => true
    | SourceUnitPart.ErrorDefinition => true
    | SourceUnitPart.FunctionDefinition => true
    | SourceUnitPart.VariableDefinition => false
    | SourceUnitPart.TypeDefinition => true
    | SourceUnitPart.Using => true
    | SourceUnitPart.StraySemicolon => false
  | none => false

/-- The filter of the `fallback_snippets` local:
`matches!(unit.source_unit.0 .0.get(0), Some(SourceUnitPart::VariableDefinition(_)))`. -/
def isFallbackSnippet (unit : SolSnippet) : Bool :=
  match unit.source_unit.head? with
  | some SourceUnitPart.VariableDefinition => true
  | _ => false

/-- The `top_level_units` local of `contract_source`: raw texts of the
snippets passing `isTopLevelSnippet`, joined by `"\n\n"`. -/
def top_level_units_block (session : List SolSnippet) : String :=
  String.intercalate "\n\n" ((session.filter isTopLevelSnippet).map SolSnippet.raw)

/-- The `fallback_snippets` local of `contract_source`: raw texts of the
snippets passing `isFallbackSnippet`, joined by `"\n"`. -/
def fallback_block (session : List SolSnippet) : String :=
  String.intercalate "\n" ((session.filter isFallbackSnippet).map SolSnippet.raw)

/-- The pragma argument of the final `format!`: the first snippet whose
source unit contains a pragma, displayed (its `raw`), else
`format!("pragma solidity {};", self.solc_version)`. -/
def pragma_line (env : ChiselEnv) : String :=
  match env.session.find? snippetHasPragma with
  | some p => p.raw
  | none => "pragma solidity " ++ env.solc_version ++ ";"

/-- Literal pieces of the `format!` template in `contract_source`
(braces written with their escape codes). -/
def templateA : String := "\n// SPDX-License-Identifier: UNLICENSED\n"

/-- Template piece between the pragma line and the import block. -/
def templateB : String := "\n\n// Imports\n"

/-- Template piece between the import block and the contract body. -/
def templateC : String :=
  "\n\n/// @title REPL\n/// @notice Auto-generated by Chisel\n/// @notice See: https://github.com/foundry-rs/foundry/tree/master/chisel\ncontract REPL \x7b\n    "

/-- Template piece between the contract body and the fallback body. -/
def templateD : String := "\n\n    fallback() \x7b\n        "

/-- Template piece closing the fallback and the contract. -/
def templateE : String := "\n    \x7d\n\x7d\n        "

/-- Embeds `ChiselEnv::contract_source`: renders the full source for the
session by filling the fixed template with the pragma line, import block,
top-level units and fallback snippets. -/
def contract_source (env : ChiselEnv) : String :=
  templateA ++ pragma_line env ++ templateB ++ imports_block env.session ++
    templateC ++ top_level_units_block env.session ++ templateD ++
    fallback_block env.session ++ templateE

/-- Rust `str::trim_end_matches` over the character list: repeatedly strip
the pattern while it is a suffix (fuel bounded by the string length; each
strip of a non-empty pattern shortens the string). -/
def trimEndMatchesAux (pat : List Char) : Nat → List Char → List Char
  | 0, s => s
  | fuel + 1, s =>
    if pat.isSuffixOf s && !pat.isEmpty then
      trimEndMatchesAux pat fuel (s.take (s.length - pat.length))
    else s

/-- Rust `str::trim_end_matches`. -/
def trimEndMatches (s pat : String) : String :=
  String.mk (trimEndMatchesAux pat.toList s.toList.length s.toList)

/-- Rust `str::trim_start_matches` over the character list. -/
def trimStartMatchesAux (pat : List Char) : Nat → List Char → List Char
  | 0, s => s
  | fuel + 1, s =>
    if pat.isPrefixOf s && !pat.isEmpty then
      trimStartMatchesAux pat fuel (s.drop pat.length)
    else s

/-- Rust `str::trim_start_matches`. -/
def trimStartMatches (s pat : String) : String :=
  String.mk (trimStartMatchesAux pat.toList s.toList.length s.toList)

/-- Rust `str::parse::<usize>`: an optional leading plus sign, then one or
more ASCII digits, rejecting values past the 64-bit range. -/
def parseUsize (s : String) : Option Nat :=
  let cs := s.toList
  let cs := if cs.head? = some (Char.ofNat 43) then cs.drop 1 else cs
  if !cs.isEmpty && cs.all fun c => c.isDigit then
    let n := cs.foldl (fun acc c => acc * 10 + (c.toNat - 48)) 0
    if n < 2 ^ 64 then some n else none
  else none

/-- One entry of the cache directory, in `read_dir` iteration order: file
name, last-modified time, content (as the JSON value the bytes parse to;
non-JSON content is irrelevant to every modelled reader), and whether the
entry is a directory. -/
structure DirEntry where
  name : String
  mtime : Nat
  content : Json
  isDir : Bool
  deriving Repr

/-- The scan loop of `next_cached_session`: keep the entry with the
greatest modified time, later entries winning ties
(`entry.metadata()?.modified()? >= latest...`). -/
def findLatest : DirEntry → List DirEntry → DirEntry
  | latest, [] => latest
  | latest, e :: rest => findLatest (if latest.mtime ≤ e.mtime then e else latest) rest

/-- Embeds `ChiselEnv::next_cached_session`: empty directory yields id 0,
otherwise the id is parsed from the most recently modified entry's file
name after stripping the `.json` suffix and `chisel-` head, and the
successor id with its file path is returned. -/
def next_cached_session (cacheDir : String) (entries : List DirEntry) :
    Except String (Nat × String) :=
  match entries with
  | [] => Except.ok (0, cacheDir ++ "chisel-0.json")
  | e :: rest =>
    let latest := findLatest e rest
    let session_num := trimStartMatches (trimEndMatches latest.name ".json") "chisel-"
    match parseUsize session_num with
    | some n => Except.ok (n + 1, cacheDir ++ "chisel-" ++ toString (n + 1) ++ ".json")
    | none => Except.error "invalid digit found in string"

/-- Twenty spaces, the indentation inside the snippet serialization
format string. -/
def sp20 : String := "                    "

/-- Sixteen spaces, the indentation before the closing brace of the
snippet serialization format string. -/
def sp16 : String := "                "

/-- The argument `Serialize for SolSnippet` hands to `serialize_str`: the
raw format string of `env.rs` with the snippet's raw text interpolated
(unescaped) for both the `source_unit` and `raw` slots. -/
def snippetPayload (raw : String) : String :=
  "\x7b\n" ++ sp20 ++ "\"source_unit\": \"" ++ raw ++ "\",\n" ++ sp20 ++
    "\"raw\": \"" ++ raw ++ "\"\n" ++ sp16 ++ "\x7d"

/-- Embeds `impl Serialize for SolSnippet`: the snippet is serialized as a
single JSON string (`serializer.serialize_str`) holding `snippetPayload`. -/
def serializeSolSnippet (s : SolSnippet) : Json :=
  Json.str (snippetPayload s.raw)

/-- Embeds the derived `Serialize for ChiselEnv`: the skipped `project`
and `rl` fields are absent; `solc_version` displays as a string, `session`
as the array of serialized snippets, `id` as a number or null. -/
def serializeChiselEnv (env : ChiselEnv) : Json :=
  Json.obj
    [("solc_version", Json.str env.solc_version),
     ("session", Json.arr (env.session.map serializeSolSnippet)),
     ("id", match env.id with | some n => Json.num n | none => Json.null)]

/-- Effect of `std::fs::write` on the cache directory listing: replace the
content and modified time of an existing entry of that name, or append a
fresh file entry. -/
def fsWrite (dir : List DirEntry) (name : String) (content : Json) (now : Nat) :
    List DirEntry :=
  if dir.any fun e => e.name == name then
    dir.map fun e => if e.name == name then { e with content := content, mtime := now } else e
  else dir ++ [⟨name, now, content, false⟩]

/-- Embeds `ChiselEnv::write`: when `id` is set the cache file path is
returned with no file written; otherwise the next session id is allocated,
assigned to the environment, and the serialized environment is written to
the fresh cache file. -/
def write (cacheDir : String) (env : ChiselEnv) (dir : List DirEntry) (now : Nat) :
    Except String (ChiselEnv × List DirEntry × String) :=
  match env.id with
  | some id => Except.ok (env, dir, cacheDir ++ "chisel-" ++ toString id ++ ".json")
  | none =>
    match next_cached_session cacheDir dir with
    | Except.error e => Except.error e
    | Except.ok (id, cache_file_name) =>
      let env2 := { env with id := some id }
      Except.ok
        (env2,
         fsWrite dir ("chisel-" ++ toString id ++ ".json") (serializeChiselEnv env2) now,
         cache_file_name)

/-- Embeds `ChiselEnv::list_sessions`: each directory entry's modified
time and file name, in iteration order. -/
def list_sessions (dir : List DirEntry) : Except String (List (Nat × String)) :=
  Except.ok (dir.map fun e => (e.mtime, e.name))

/-- Embeds `ChiselEnv::clear_cache`: delete every entry in iteration
order through the filesystem collaborator `delete` (covering both
`remove_dir_all` and `remove_file`); the first failure aborts the loop
with that entry's error.  On success the resulting listing is returned. -/
def clear_cache (delete : DirEntry → Except String Unit) :
    List DirEntry → Except String (List DirEntry)
  | [] => Except.ok []
  | e :: rest =>
    match delete e with
    | Except.ok _ => clear_cache delete rest
    | Except.error err => Except.error err

/-- The double-quote character, written by code point to keep character
literals unambiguous. -/
def quoteChar : Char := Char.ofNat 34

/-- Field lookup in a JSON object, first occurrence wins (as the serde
map visitor reads fields). -/
def jsonField (fields : List (String × Json)) (key : String) : Option Json :=
  (fields.find? fun kv => kv.fst == key).map Prod.snd

mutual

/-- The document text a `serde_json RawValue` holds for a JSON value
(string escape sequences are elided: no theorem below reaches a string
needing them). -/
def jsonRawText : Json → String
  | Json.null => "null"
  | Json.bool b => cond b "true" "false"
  | Json.num n => toString n
  | Json.str s => "\"" ++ s ++ "\""
  | Json.arr elems => "[" ++ jsonRawTextSeq elems ++ "]"
  | Json.obj fields => "\x7b" ++ jsonRawTextFields fields ++ "\x7d"

/-- Raw text of an array's elements, comma separated. -/
def jsonRawTextSeq : List Json → String
  | [] => ""
  | [j] => jsonRawText j
  | j :: rest => jsonRawText j ++ "," ++ jsonRawTextSeq rest

/-- Raw text of an object's fields, comma separated. -/
def jsonRawTextFields : List (String × Json) → String
  | [] => ""
  | [kv] => "\"" ++ kv.fst ++ "\":" ++ jsonRawText kv.snd
  | kv :: rest => "\"" ++ kv.fst ++ "\":" ++ jsonRawText kv.snd ++ "," ++ jsonRawTextFields rest

end

/-- Rust `str::trim_matches(c)`: strip every leading and trailing
occurrence of the character. -/
def trimMatchesChar (s : String) (c : Char) : String :=
  let cs := s.toList.dropWhile fun x => x == c
  String.mk ((cs.reverse.dropWhile fun x => x == c).reverse)

/-- Embeds the derived `Deserialize for SolSnippet`: only a JSON object
with `source_unit` and `raw` fields is accepted; each field's raw document
text is quote-trimmed, `source_unit` is re-parsed through the external
parser collaborator, and `raw` is kept as text. -/
def deserializeSolSnippet (parse : String → Option (List SourceUnitPart)) (j : Json) :
    Except String SolSnippet :=
  match j with
  | Json.obj fields =>
    match jsonField fields "source_unit", jsonField fields "raw" with
    | some su, some rawv =>
      match parse (trimMatchesChar (jsonRawText su) quoteChar) with
      | some source_unit =>
        Except.ok ⟨source_unit, trimMatchesChar (jsonRawText rawv) quoteChar⟩
      | none => Except.error "Failed to parse serialized string as source unit"
    | _, _ => Except.error "missing field in SolSnippet"
  | _ => Except.error "invalid type, expected struct SolSnippet"

/-- Embeds the derived `Deserialize for ChiselEnv` as `serde_json::from_str`
applies it in `load`: an object with a `solc_version` string (semver
parsing elided: no claim exercises a malformed version), a `session` array
of snippets, and an optional numeric `id` (absent or null meaning none).
The skipped `project` and `rl` fields take their defaults and are elided. -/
def deserializeChiselEnv (parse : String → Option (List SourceUnitPart)) (j : Json) :
    Except String ChiselEnv :=
  match j with
  | Json.obj fields =>
    match jsonField fields "solc_version" with
    | some (Json.str v) =>
      (match jsonField fields "session" with
       | some (Json.arr elems) =>
         (match elems.mapM (deserializeSolSnippet parse) with
          | Except.ok session =>
            (match jsonField fields "id" with
             | some (Json.num n) => Except.ok ⟨v, session, some n⟩
             | some Json.null => Except.ok ⟨v, session, none⟩
             | none => Except.ok ⟨v, session, none⟩
             | some _ => Except.error "invalid type for field id")
          | Except.error e => Except.error e)
       | _ => Except.error "invalid type for field session")
    | _ => Except.error "invalid type for field solc_version"
  | _ => Except.error "invalid type, expected struct ChiselEnv"

/-- Spec §4.2 table, written from the spec's words: a fragment is
top-level-renderable when its first top-level declaration is an enum,
struct, event, error, function, type-alias or using-directive
definition. -/
def specTopLevelRenderable (r : SolSnippet) : Bool :=
  match r.source_unit.head? with
  | some SourceUnitPart.EnumDefinition => true
  | some SourceUnitPart.StructDefinition => true
  | some SourceUnitPart.EventDefinition => true
  | some SourceUnitPart.ErrorDefinition => true
  | some SourceUnitPart.FunctionDefinition => true
  | some SourceUnitPart.TypeDefinition => true
  | some SourceUnitPart.Using => true
  | _ => false

/-- Spec §4.2 table: a fragment is fallback-only when its first top-level
declaration is a variable declaration. -/
def specFallbackOnly (r : SolSnippet) : Bool :=
  match r.source_unit.head? with
  | some SourceUnitPart.VariableDefinition => true
  | _ => false

/-- Spec §4.3 step 2, per part: an import directive anywhere in a tree
contributes its literal path string; any other part contributes nothing. -/
def specImportPath : SourceUnitPart → Option String
  | SourceUnitPart.ImportDirective (Import.Plain sl) => some sl
  | SourceUnitPart.ImportDirective (Import.GlobalSymbol sl) => some sl
  | SourceUnitPart.ImportDirective (Import.Rename sl) => some sl
  | _ => none

/-- Spec §4.3 step 2: every import path in every record's tree, in record
order then in-tree order. -/
def specImportPaths (session : List SolSnippet) : List String :=
  (session.map fun r => r.source_unit.filterMap specImportPath).flatten

/-- Spec-worded pragma-candidate test for the amended claim C3: the
record's tree contains a pragma directive anywhere. -/
def specHasPragmaAnywhere (r : SolSnippet) : Bool :=
  r.source_unit.any fun p => decide (p = SourceUnitPart.PragmaDirective)

/-- The imports map with the `unreachable!()` arm's value made a
parameter, used to show the arm's value never influences the output. -/
def importPathOfPartOr (d : String) (sup : SourceUnitPart) : String :=
  match sup with
  | SourceUnitPart.ImportDirective imp =>
    match imp with
    | Import.Plain sl => sl
    | Import.GlobalSymbol sl => sl
    | Import.Rename sl => sl
  | _ => d

/-- The imports block with the `unreachable!()` arm's value made a
parameter. -/
def imports_block_with (d : String) (session : List SolSnippet) : String :=
  String.intercalate "\n"
    (session.map fun i => (i.source_unit.filter isImportPart).map (importPathOfPartOr d)).flatten

lemma importPathOfPartOr_eq (d : String) :
    ∀ p : SourceUnitPart, isImportPart p = true → importPathOfPartOr d p = importPathOfPart p := by
  intro p hp
  cases p
  case ImportDirective imp => cases imp <;> rfl
  all_goals simp [isImportPart] at hp

lemma filter_map_import_eq (parts : List SourceUnitPart) :
    (parts.filter isImportPart).map importPathOfPart = parts.filterMap specImportPath := by
  induction parts with
  | nil => rfl
  | cons p rest ih =>
    cases p
    case ImportDirective imp =>
      cases imp <;>
        simp [List.filter_cons, List.filterMap_cons, isImportPart, specImportPath,
          importPathOfPart, ih]
    all_goals
      simp [List.filter_cons, List.filterMap_cons, isImportPart, specImportPath, ih]

lemma imports_block_spec_eq (session : List SolSnippet) :
    imports_block session = String.intercalate "\n" (specImportPaths session) := by
  unfold imports_block specImportPaths
  congr 2
  apply List.map_congr_left
  intro i _
  exact filter_map_import_eq i.source_unit

lemma isTopLevelSnippet_eq_spec (r : SolSnippet) :
    isTopLevelSnippet r = specTopLevelRenderable r := by
  rcases r with ⟨parts, raw⟩
  cases parts with
  | nil => rfl
  | cons p rest => cases p <;> rfl

lemma isFallbackSnippet_eq_spec (r : SolSnippet) :
    isFallbackSnippet r = specFallbackOnly r := by
  rcases r with ⟨parts, raw⟩
  cases parts with
  | nil => rfl
  | cons p rest => cases p <;> rfl

lemma snippetHasPragma_eq_spec (r : SolSnippet) :
    snippetHasPragma r = specHasPragmaAnywhere r := by
  unfold snippetHasPragma specHasPragmaAnywhere
  congr 1
  funext p
  cases p <;> simp

lemma top_level_block_spec_eq (session : List SolSnippet) :
    top_level_units_block session =
      String.intercalate "\n\n" ((session.filter specTopLevelRenderable).map SolSnippet.raw) := by
  unfold top_level_units_block
  rw [List.filter_congr fun r _ => isTopLevelSnippet_eq_spec r]

lemma fallback_block_spec_eq (session : List SolSnippet) :
    fallback_block session =
      String.intercalate "\n" ((session.filter specFallbackOnly).map SolSnippet.raw) := by
  unfold fallback_block
  rw [List.filter_congr fun r _ => isFallbackSnippet_eq_spec r]

lemma pragma_find_eq (session : List SolSnippet) :
    session.find? snippetHasPragma = session.find? specHasPragmaAnywhere := by
  induction session with
  | nil => rfl
  | cons r rest ih =>
    rw [List.find?_cons, List.find?_cons, snippetHasPragma_eq_spec r, ih]

lemma findLatest_eq_of_max :
    ∀ (es : List DirEntry) (latest : DirEntry),
      (∀ x ∈ es, x = latest ∨ x.mtime < latest.mtime) → findLatest latest es = latest := by
  intro es
  induction es with
  | nil => intro latest _; rfl
  | cons x rest ih =>
    intro latest h
    rcases h x (List.mem_cons_self x rest) with hx | hx
    · subst hx
      show findLatest (if x.mtime ≤ x.mtime then x else x) rest = x
      rw [if_pos le_rfl]
      exact ih x fun y hy => h y (List.mem_cons_of_mem x hy)
    · show findLatest (if latest.mtime ≤ x.mtime then x else latest) rest = latest
      rw [if_neg (not_le.mpr hx)]
      exact ih latest fun y hy => h y (List.mem_cons_of_mem x hy)

lemma findLatest_mem_max :
    ∀ (es : List DirEntry) (latest e : DirEntry),
      e ∈ es → (∀ x ∈ es, x = e ∨ x.mtime < e.mtime) → latest.mtime < e.mtime →
      findLatest latest es = e := by
  intro es
  induction es with
  | nil => intro _ e he _ _; exact absurd he (List.not_mem_nil e)
  | cons x rest ih =>
    intro latest e he h hlt
    by_cases hxe : x = e
    · subst hxe
      show findLatest (if latest.mtime ≤ x.mtime then x else latest) rest = x
      rw [if_pos (le_of_lt hlt)]
      exact findLatest_eq_of_max rest x fun y hy => h y (List.mem_cons_of_mem x hy)
    · have he2 : e ∈ rest := by
        rcases List.mem_cons.mp he with h1 | h1
        · exact absurd h1.symm hxe
        · exact h1
      have hxlt : x.mtime < e.mtime := by
        rcases h x (List.mem_cons_self x rest) with h1 | h1
        · exact absurd h1 hxe
        · exact h1
      show findLatest (if latest.mtime ≤ x.mtime then x else latest) rest = e
      by_cases hc : latest.mtime ≤ x.mtime
      · rw [if_pos hc]
        exact ih x e he2 (fun y hy => h y (List.mem_cons_of_mem x hy)) hxlt
      · rw [if_neg hc]
        exact ih latest e he2 (fun y hy => h y (List.mem_cons_of_mem x hy)) hlt

lemma findLatest_unique_max (first : DirEntry) (rest : List DirEntry) (e : DirEntry)
    (he : e ∈ first :: rest)
    (h : ∀ x ∈ first :: rest, x ≠ e → x.mtime < e.mtime) :
    findLatest first rest = e := by
  by_cases hfe : first = e
  · subst hfe
    apply findLatest_eq_of_max
    intro x hx
    by_cases hxe : x = first
    · exact Or.inl hxe
    · exact Or.inr (h x (List.mem_cons_of_mem first hx) hxe)
  · have he2 : e ∈ rest := by
      rcases List.mem_cons.mp he with h1 | h1
      · exact absurd h1.symm hfe
      · exact h1
    apply findLatest_mem_max rest first e he2
    · intro x hx
      by_cases hxe : x = e
      · exact Or.inl hxe
      · exact Or.inr (h x (List.mem_cons_of_mem first hx) hxe)
    · exact h first (List.mem_cons_self first rest) hfe

lemma clear_cache_ok (delete : DirEntry → Except String Unit) :
    ∀ (dir dir2 : List DirEntry), clear_cache delete dir = Except.ok dir2 → dir2 = [] := by
  intro dir
  induction dir with
  | nil => intro dir2 h; cases h; rfl
  | cons e rest ih =>
    intro dir2 h
    unfold clear_cache at h
    cases hd : delete e with
    | ok u => rw [hd] at h; exact ih dir2 h
    | error err => rw [hd] at h; cases h

lemma clear_cache_aborts (delete : DirEntry → Except String Unit) :
    ∀ (pre : List DirEntry) (e : DirEntry) (post : List DirEntry) (msg : String),
      (∀ x ∈ pre, delete x = Except.ok ()) → delete e = Except.error msg →
      clear_cache delete (pre ++ e :: post) = Except.error msg := by
  intro pre
  induction pre with
  | nil =>
    intro e post msg _ he
    show clear_cache delete (e :: post) = Except.error msg
    unfold clear_cache
    rw [he]
  | cons x rest ih =>
    intro e post msg hpre he
    have hx : delete x = Except.ok () := hpre x (List.mem_cons_self x rest)
    show clear_cache delete (x :: (rest ++ e :: post)) = Except.error msg
    unfold clear_cache
    rw [hx]
    exact ih e post msg (fun y hy => hpre y (List.mem_cons_of_mem x hy)) he

/-- C5: a fragment record's placement is decided solely by its first
top-level declaration: enum, struct, event, error, function, type-alias
and using-directive fragments are top-level-renderable (container body)
and not fallback; variable-declaration fragments are fallback-only; all
other first declarations (pragma, import, contract, stray terminator) or
an empty tree place the fragment in neither body; no fragment is in both
groups. -/
theorem classification_by_first_decl_c5 (r : SolSnippet) :
    (isTopLevelSnippet r = true ↔
      r.source_unit.head? ∈
        [some SourceUnitPart.EnumDefinition, some SourceUnitPart.StructDefinition,
         some SourceUnitPart.EventDefinition, some SourceUnitPart.ErrorDefinition,
         some SourceUnitPart.FunctionDefinition, some SourceUnitPart.TypeDefinition,
         some SourceUnitPart.Using])
    ∧ (isFallbackSnippet r = true ↔ r.source_unit.head? = some SourceUnitPart.VariableDefinition)
    ∧ ¬(isTopLevelSnippet r = true ∧ isFallbackSnippet r = true) := by
  rcases r with ⟨parts, raw⟩
  cases parts with
  | nil => simp [isTopLevelSnippet, isFallbackSnippet]
  | cons p rest => cases p <;> simp [isTopLevelSnippet, isFallbackSnippet]

/-- C6: the rendered container body is the blank-line-separated
concatenation of the verbatim raw texts of exactly the
top-level-renderable records (spec table), and the fallback body the
newline-separated concatenation of exactly the fallback-only records,
each group a sublist of the session and hence preserving submission
order. -/
theorem bodies_verbatim_ordered_c6 (session : List SolSnippet) :
    top_level_units_block session =
      String.intercalate "\n\n" ((session.filter specTopLevelRenderable).map SolSnippet.raw)
    ∧ fallback_block session =
      String.intercalate "\n" ((session.filter specFallbackOnly).map SolSnippet.raw)
    ∧ List.Sublist (session.filter specTopLevelRenderable) session
    ∧ List.Sublist (session.filter specFallbackOnly) session :=
  ⟨top_level_block_spec_eq session, fallback_block_spec_eq session,
   List.filter_sublist session, List.filter_sublist session⟩

/-- C7: the rendered import block lists the literal path string of
every import directive found anywhere in any record's tree, in record
order then in-tree order, one per line. -/
theorem imports_block_spec_c7 (session : List SolSnippet) :
    imports_block session = String.intercalate "\n" (specImportPaths session) :=
  imports_block_spec_eq session

/-- C8: synthesis is a deterministic pure function of the ordered session
content and the language version only; two environments agreeing on those
(whatever their cache ids) render byte-identical output. -/
theorem render_deterministic_c8 (e1 e2 : ChiselEnv)
    (hv : e1.solc_version = e2.solc_version) (hs : e1.session = e2.session) :
    contract_source e1 = contract_source e2 := by
  rcases e1 with ⟨v1, s1, i1⟩
  rcases e2 with ⟨v2, s2, i2⟩
  dsimp only at hv hs
  subst hv
  subst hs
  rfl

/-- Witness for C8 at a concrete input: two environments differing only
in cache id render identically. -/
theorem render_deterministic_c8_witness :
    contract_source ⟨"0.8.17", [], some 0⟩ = contract_source ⟨"0.8.17", [], none⟩ :=
  render_deterministic_c8 ⟨"0.8.17", [], some 0⟩ ⟨"0.8.17", [], none⟩ rfl rfl

/-- C9: a successful purge leaves the cache empty, so `list_sessions`
returns the empty list; and if deleting any single entry fails, the whole
purge aborts with that entry's error. -/
theorem purge_totality_c9 (delete : DirEntry → Except String Unit) (dir : List DirEntry) :
    (∀ dir2, clear_cache delete dir = Except.ok dir2 →
      dir2 = [] ∧ list_sessions dir2 = Except.ok [])
    ∧ (∀ (pre : List DirEntry) (e : DirEntry) (post : List DirEntry) (msg : String),
        dir = pre ++ e :: post → (∀ x ∈ pre, delete x = Except.ok ()) →
        delete e = Except.error msg → clear_cache delete dir = Except.error msg) := by
  constructor
  · intro dir2 h
    have h0 := clear_cache_ok delete dir dir2 h
    subst h0
    exact ⟨rfl, rfl⟩
  · intro pre e post msg hdir hpre he
    subst hdir
    exact clear_cache_aborts delete pre e post msg hpre he

/-- Filesystem collaborator for the C9 witness: deleting the entry with
modified time 0 succeeds, any other fails with a permission error. -/
def deleteW : DirEntry → Except String Unit :=
  fun e => if e.mtime == 0 then Except.ok () else Except.error "Permission denied"

/-- A deletable cache entry for the C9 witness. -/
def entryGoodW : DirEntry := ⟨"chisel-0.json", 0, Json.null, false⟩

/-- An undeletable cache entry for the C9 witness. -/
def entryBadW : DirEntry := ⟨"locked", 1, Json.null, false⟩

/-- Witness for C9 at concrete inputs: purging a one-entry cache empties
it, and a failing entry aborts the purge with its error. -/
theorem purge_totality_c9_witness :
    (([] : List DirEntry) = [] ∧ list_sessions [] = Except.ok []) ∧
      clear_cache deleteW [entryGoodW, entryBadW] = Except.error "Permission denied" :=
  ⟨(purge_totality_c9 deleteW [entryGoodW]).1 [] (by rfl),
   (purge_totality_c9 deleteW [entryGoodW, entryBadW]).2 [entryGoodW] entryBadW [] "Permission denied"
     rfl (by intro x hx; rw [List.mem_singleton] at hx; subst hx; rfl) (by rfl)⟩

/-- C10: the synthesizer is total and the `unreachable!()` arm of
the import extraction is never evaluated: the import block does not
depend on the value the arm would produce, because the preceding filter
admits only parts that are import directives. -/
theorem render_total_unreachable_c10 (d : String) (session : List SolSnippet) :
    imports_block_with d session = imports_block session := by
  unfold imports_block_with imports_block
  congr 2
  apply List.map_congr_left
  intro i _
  apply List.map_congr_left
  intro p hp
  exact importPathOfPartOr_eq d p (List.mem_filter.mp hp).2

/-- Claim C3's pragma selection rule as written: the first record whose
FIRST top-level declaration is a pragma directive. -/
def claimPragmaFirstDecl (i : SolSnippet) : Bool :=
  match i.source_unit.head? with
  | some SourceUnitPart.PragmaDirective => true
  | _ => false

/-- The renderer claim C3 as written describes: identical to
`contract_source` except the pragma line comes from the first record
whose first declaration is a pragma. -/
def claimC3_render (env : ChiselEnv) : String :=
  templateA ++
    (match env.session.find? claimPragmaFirstDecl with
     | some p => p.raw
     | none => "pragma solidity " ++ env.solc_version ++ ";") ++
    templateB ++ imports_block env.session ++ templateC ++
    top_level_units_block env.session ++ templateD ++ fallback_block env.session ++ templateE

/-- A fragment whose first declaration is a function but whose tree also
contains a pragma directive later on. -/
def snippetLatePragma : SolSnippet :=
  ⟨[SourceUnitPart.FunctionDefinition, SourceUnitPart.PragmaDirective],
   "function f() public \x7b\x7d pragma solidity 0.8.17;"⟩

/-- A session holding only `snippetLatePragma`. -/
def envLatePragma : ChiselEnv := ⟨"0.8.17", [snippetLatePragma], none⟩

/-- Counterexample to C3 as written: on a session whose only record has a
function as first declaration and a pragma later in the tree, the code
emits that record's raw text as the pragma line, while the claim calls
for the synthesized default; the outputs differ. -/
theorem pragma_first_decl_counterexample_c3 :
    contract_source envLatePragma ≠ claimC3_render envLatePragma := by
  decide

/-- The amended claim C3's renderer, in the spec's words: the pragma line
is the verbatim raw text of the first record whose tree contains a pragma
directive anywhere among its top-level declarations, else the canonical
default embedding the version; the remaining regions follow the spec's
synthesis steps. -/
def amended_render_c3 (env : ChiselEnv) : String :=
  templateA ++
    (match env.session.find? specHasPragmaAnywhere with
     | some p => p.raw
     | none => "pragma solidity " ++ env.solc_version ++ ";") ++
    templateB ++ String.intercalate "\n" (specImportPaths env.session) ++ templateC ++
    String.intercalate "\n\n" ((env.session.filter specTopLevelRenderable).map SolSnippet.raw) ++
    templateD ++
    String.intercalate "\n" ((env.session.filter specFallbackOnly).map SolSnippet.raw) ++
    templateE

/-- C3 amended: the rendered pragma line is the exact verbatim text of
the first record (in session order) whose tree contains a pragma
directive anywhere; if no such record exists it is the canonical default
embedding the Environment's language version. -/
theorem contract_source_amended_pragma_c3 (env : ChiselEnv) :
    contract_source env = amended_render_c3 env := by
  unfold contract_source amended_render_c3 pragma_line
  rw [pragma_find_eq, imports_block_spec_eq, top_level_block_spec_eq, fallback_block_spec_eq]

/-- Counterexample to C4 as written: with snapshot 0 present but an
unrelated file (`session.lock`) modified later, the next allocation does
not return 1 — it fails, because the winning file name does not trim to a
parseable integer.  The claim promised id 1 regardless of the
modification order of unrelated files. -/
theorem alloc_id_unrelated_counterexample_c4 :
    next_cached_session ""
      [⟨"chisel-0.json", 0, Json.null, false⟩, ⟨"session.lock", 1, Json.null, false⟩] =
      Except.error "invalid digit found in string" := by
  rfl

/-- C4 amended: on an empty cache the allocation returns id 0; on a
non-empty cache whose strictly most recently modified entry trims
(`.json` suffix, `chisel-` head) to a parseable integer id, it returns
id+1 and the matching file path; when that trimmed name is not a
parseable integer it fails.  In particular, after snapshot 0 is written,
the next allocation returns 1 provided snapshot 0 remains the most
recently modified entry of the directory. -/
theorem next_cached_session_spec_c4 (cacheDir : String) :
    next_cached_session cacheDir [] = Except.ok (0, cacheDir ++ "chisel-0.json")
    ∧ (∀ (first : DirEntry) (rest : List DirEntry) (e : DirEntry) (n : Nat),
        e ∈ first :: rest →
        (∀ x ∈ first :: rest, x ≠ e → x.mtime < e.mtime) →
        parseUsize (trimStartMatches (trimEndMatches e.name ".json") "chisel-") = some n →
        next_cached_session cacheDir (first :: rest) =
          Except.ok (n + 1, cacheDir ++ "chisel-" ++ toString (n + 1) ++ ".json"))
    ∧ (∀ (first : DirEntry) (rest : List DirEntry) (e : DirEntry),
        e ∈ first :: rest →
        (∀ x ∈ first :: rest, x ≠ e → x.mtime < e.mtime) →
        parseUsize (trimStartMatches (trimEndMatches e.name ".json") "chisel-") = none →
        next_cached_session cacheDir (first :: rest) =
          Except.error "invalid digit found in string") := by
  refine ⟨rfl, ?_, ?_⟩
  · intro first rest e n he h hp
    have hl := findLatest_unique_max first rest e he h
    simp only [next_cached_session]
    rw [hl, hp]
  · intro first rest e he h hp
    have hl := findLatest_unique_max first rest e he h
    simp only [next_cached_session]
    rw [hl, hp]

/-- The single cache entry for the C4 witness: snapshot 4, the most
recent (and only) entry. -/
def entryW4 : DirEntry := ⟨"chisel-4.json", 3, Json.null, false⟩

/-- Witness for C4 at a concrete input: with snapshot 4 the only entry,
allocation returns id 5. -/
theorem next_cached_session_spec_c4_witness :
    next_cached_session "" [entryW4] =
      Except.ok (4 + 1, "" ++ "chisel-" ++ toString (4 + 1) ++ ".json") :=
  (next_cached_session_spec_c4 "").2.1 entryW4 [] entryW4 4
    (List.mem_singleton_self entryW4)
    (by intro x hx hne; rw [List.mem_singleton] at hx; exact absurd hx hne)
    (by rfl)

/-- A variable-declaration fragment used by the persistence inputs. -/
def snippetVarX : SolSnippet := ⟨[SourceUnitPart.VariableDefinition], "uint256 x;"⟩

/-- An environment whose cache id is already set to 0. -/
def envStale : ChiselEnv := ⟨"0.8.17", [snippetVarX], some 0⟩

/-- A cache directory holding snapshot 0 with stale content. -/
def dirStale : List DirEntry := [⟨"chisel-0.json", 0, Json.str "stale", false⟩]

/-- C1, code bug: for an Environment whose cache id is set, `write`
returns the snapshot path without writing anything — the directory is
unchanged and the stored file still differs from the serialization of the
current environment — contradicting the claim (and the function's own
documentation) that the existing snapshot file is overwritten.  The
id-unset allocation path is exercised by the model's `write` none branch. -/
theorem write_id_set_no_write_c1 :
    write "" envStale dirStale 7 =
      Except.ok (envStale, dirStale, "" ++ "chisel-" ++ toString 0 ++ ".json")
    ∧ dirStale.map DirEntry.content ≠ [serializeChiselEnv envStale] := by
  constructor
  · rfl
  · intro h
    simp [dirStale, serializeChiselEnv, envStale] at h

/-- An environment that has never been persisted. -/
def envRT : ChiselEnv := ⟨"0.8.17", [snippetVarX], none⟩

/-- C2, code bug: persist followed by restore can never reconstruct the
session, whatever the parser does — `Serialize for SolSnippet` emits each
session entry as a single JSON string (via `serialize_str` of
hand-formatted object-looking text), while the derived `Deserialize`
accepts only a JSON object, so loading the just-written snapshot fails
with a type error before the parser is ever consulted. -/
theorem snapshot_roundtrip_fails_c2 (parse : String → Option (List SourceUnitPart)) :
    deserializeChiselEnv parse (serializeChiselEnv envRT) =
      Except.error "invalid type, expected struct SolSnippet" := by
  rfl
